import Mathlib

/-
Verification of the Code-Empathizer analysis core against its specification.

The Python sources under analysis are shallowly embedded:
* dictionaries become insertion-ordered association lists (`List (String × _)`),
  matching CPython's ordered-dict semantics used by the code;
* floats become exact rationals (`ℚ`);
* code that can raise becomes `Except String _`;
* the MD5 block hash of `duplication_analyzer.py` is modelled as the identity
  on the normalized block text (hashing is injective up to collisions, which
  the design explicitly accepts).

Embedded modules: `src/language_analyzers/base.py`,
`src/language_analyzers/factory.py`,
`src/language_analyzers/typescript_analyzer.py`, `src/duplication_analyzer.py`.
-/

namespace CodeEmpathizer

/-! ## Insertion-ordered association lists (Python `dict` model) -/

/-- Dictionary lookup `d.get(k)`: first binding of the key, if any. -/
def alookup {α : Type} : List (String × α) → String → Option α
  | [], _ => none
  | (k', v) :: rest, k => if k' = k then some v else alookup rest k

/-- Dictionary assignment `d[k] = v`: replaces the first binding of the key,
appends a new binding at the end when the key is absent (CPython keeps
insertion order). -/
def aset {α : Type} : List (String × α) → String → α → List (String × α)
  | [], k, v => [(k, v)]
  | (k', v') :: rest, k, v =>
      if k' = k then (k, v) :: rest else (k', v') :: aset rest k v

/-- Keys of a dictionary in insertion order. -/
def akeys {α : Type} (l : List (String × α)) : List String :=
  l.map Prod.fst

theorem alookup_aset_self {α : Type} (l : List (String × α)) (k : String) (v : α) :
    alookup (aset l k v) k = some v := by
  induction l with
  | nil => simp [aset, alookup]
  | cons hd tl ih =>
      obtain ⟨k', v'⟩ := hd
      by_cases h : k' = k <;> simp [aset, alookup, h, ih]

theorem alookup_aset_ne {α : Type} (l : List (String × α)) (k k' : String) (v : α)
    (h : k ≠ k') : alookup (aset l k v) k' = alookup l k' := by
  induction l with
  | nil => simp [aset, alookup, h]
  | cons hd tl ih =>
      obtain ⟨k₀, v₀⟩ := hd
      by_cases h₀ : k₀ = k
      · subst h₀
        simp [aset, alookup, h]
      · simp only [aset, if_neg h₀]
        by_cases h₁ : k₀ = k' <;> simp [alookup, h₁, ih]

theorem akeys_aset_of_mem {α : Type} (l : List (String × α)) (k : String) (v : α)
    (h : k ∈ akeys l) : akeys (aset l k v) = akeys l := by
  induction l with
  | nil => simp [akeys] at h
  | cons hd tl ih =>
      obtain ⟨k₀, v₀⟩ := hd
      by_cases h₀ : k₀ = k
      · subst h₀
        simp [aset, akeys]
      · have hmem : k ∈ akeys tl := by
          simp [akeys] at h
          rcases h with h | h
          · exact absurd h.symm h₀
          · simpa [akeys] using h
        have htl := ih hmem
        simp only [aset, if_neg h₀, akeys, List.map_cons]
        simpa [akeys] using htl

theorem mem_of_alookup_eq_some {α : Type} {l : List (String × α)} {k : String} {v : α}
    (h : alookup l k = some v) : (k, v) ∈ l := by
  induction l with
  | nil => simp [alookup] at h
  | cons hd tl ih =>
      obtain ⟨k₀, v₀⟩ := hd
      by_cases h₀ : k₀ = k
      · subst h₀
        simp [alookup] at h
        simp [h]
      · simp [alookup, h₀] at h
        exact List.mem_cons_of_mem _ (ih h)

theorem mem_aset_elim {α : Type} {l : List (String × α)} {k k' : String} {v v' : α}
    (h : (k', v') ∈ aset l k v) : (k' = k ∧ v' = v) ∨ (k', v') ∈ l := by
  induction l with
  | nil =>
      simp [aset] at h
      exact Or.inl h
  | cons hd tl ih =>
      obtain ⟨k₀, v₀⟩ := hd
      by_cases h₀ : k₀ = k
      · subst h₀
        simp [aset] at h
        rcases h with h | h
        · exact Or.inl h
        · exact Or.inr (List.mem_cons_of_mem _ h)
      · simp [aset, h₀] at h
        rcases h with h | h
        · exact Or.inr (by simp [h])
        · rcases ih h with h' | h'
          · exact Or.inl h'
          · exact Or.inr (List.mem_cons_of_mem _ h')

/-! ## Data model for the language analyzers (`base.py`) -/

/-- Per-file metrics returned by `analyze_file`: category name to a map of
leaf metric name to numeric value (`FileMetrics` in the spec). -/
def FileMetrics : Type := List (String × List (String × ℚ))

/-- Aggregated `self.metrics` of a `LanguageAnalyzer`: the same nested shape. -/
def Metrics : Type := List (String × List (String × ℚ))

/-- Nested lookup `metrics.get(cat, \x7b\x7d).get(leaf)`. -/
def alookup2 (m : Metrics) (cat leaf : String) : Option ℚ :=
  alookup ((alookup m cat).getD []) leaf

/-- A language analyzer: the abstract capability set of `LanguageAnalyzer`
(`get_language_name`, `get_file_extensions`, `analyze_file`).  `analyze_file`
may raise, which is modelled with `Except`. -/
structure AnalyzerSpec where
  name : String
  extensions : List String
  analyzeFile : String → String → Except String FileMetrics

/-- Mutable instance state of a `LanguageAnalyzer`
(`self.metrics`, `self.total_files`, `self.total_lines`). -/
structure AnalyzerState where
  metrics : Metrics
  total_files : ℕ
  total_lines : ℕ

/-- The eight fixed category names, in the order `__init__` creates them. -/
def categoryNames : List String :=
  ["nombres", "documentacion", "modularidad", "complejidad",
   "manejo_errores", "pruebas", "seguridad", "consistencia_estilo"]

/-- `self.metrics` right after `LanguageAnalyzer.__init__`: all eight
categories mapped to empty dictionaries. -/
def initMetrics : Metrics :=
  [("nombres", []), ("documentacion", []), ("modularidad", []),
   ("complejidad", []), ("manejo_errores", []), ("pruebas", []),
   ("seguridad", []), ("consistencia_estilo", [])]

/-- Freshly constructed analyzer state (`__init__`). -/
def initAnalyzerState : AnalyzerState :=
  { metrics := initMetrics, total_files := 0, total_lines := 0 }

/-- Python `s.endswith(suffix)`. -/
def pyEndsWith (s suffix : String) : Bool :=
  suffix.toList.isSuffixOf s.toList

/-- `LanguageAnalyzer.should_analyze_file`: the path ends with one of the
analyzer's extensions. -/
def should_analyze_file (spec : AnalyzerSpec) (file_path : String) : Bool :=
  spec.extensions.any (fun ext => pyEndsWith file_path ext)

/-- Number of newline characters, `content.count('\n')`. -/
def countNewlines (content : String) : ℕ :=
  content.toList.count '\n'

/-- Arithmetic mean `sum(values) / len(values)` over `ℚ`. -/
def listMean (l : List ℚ) : ℚ :=
  l.sum / (l.length : ℚ)

/-- One aggregation block of `LanguageAnalyzer.aggregate_metrics`:
collect `m.get(cat, \x7b\x7d).get(leafIn, 0)` over the files whose `cat`
entry is truthy (present and non-empty) and, when any were collected, store
their mean under `metrics[cat][leafOut]`. -/
def aggregateCat (metrics : Metrics) (file_metrics : List FileMetrics)
    (cat leafIn leafOut : String) : Metrics :=
  let scores := (file_metrics.filter
      (fun m => !((alookup m cat).getD []).isEmpty)).map
      (fun m => (alookup ((alookup m cat).getD []) leafIn).getD 0)
  if scores.isEmpty then metrics
  else aset metrics cat (aset ((alookup metrics cat).getD []) leafOut (listMean scores))

/-- The eight `(category, per-file leaf, aggregated leaf)` triples handled by
`aggregate_metrics`, in source order. -/
def aggregationTable : List (String × String × String) :=
  [("nombres", "descriptividad", "descriptividad"),
   ("documentacion", "cobertura", "cobertura_docstrings"),
   ("complejidad", "ciclomatica", "complejidad_ciclomatica"),
   ("modularidad", "funciones", "funciones_por_archivo"),
   ("manejo_errores", "cobertura", "cobertura_manejo_errores"),
   ("pruebas", "cobertura", "cobertura_pruebas"),
   ("seguridad", "validacion", "validacion_entradas"),
   ("consistencia_estilo", "consistencia", "consistencia_nombres")]

/-- `LanguageAnalyzer.aggregate_metrics`: a no-op on an empty list, otherwise
the eight sequential category blocks. -/
def aggregate_metrics (metrics : Metrics) (file_metrics : List FileMetrics) : Metrics :=
  if file_metrics.isEmpty then metrics
  else aggregationTable.foldl
    (fun m row => aggregateCat m file_metrics row.1 row.2.1 row.2.2) metrics

/-- `LanguageAnalyzer.analyze_files`: filter the input map to
extension-matching paths, run `analyze_file` on each, drop the files whose
analysis raises, bump `total_files` and `total_lines` for each success,
aggregate the collected per-file metrics, and return `self.metrics`.
The source's single loop is rendered as filters over the same iteration
order collecting exactly the same successes. -/
def analyze_files (spec : AnalyzerSpec) (st : AnalyzerState)
    (files : List (String × String)) : AnalyzerState × Metrics :=
  let matched := files.filter (fun pc => should_analyze_file spec pc.1)
  let okFiles := matched.filter (fun pc => (spec.analyzeFile pc.1 pc.2).toOption.isSome)
  let file_metrics := matched.filterMap (fun pc => (spec.analyzeFile pc.1 pc.2).toOption)
  let metrics := aggregate_metrics st.metrics file_metrics
  ({ metrics := metrics,
     total_files := st.total_files + okFiles.length,
     total_lines := st.total_lines + (okFiles.map (fun pc => countNewlines pc.2)).sum },
   metrics)

/-- The fixed category weights of `calculate_empathy_score`, in source order. -/
def empathyWeights : List (String × ℚ) :=
  [("nombres", 15/100), ("documentacion", 15/100), ("modularidad", 15/100),
   ("complejidad", 15/100), ("manejo_errores", 10/100), ("pruebas", 10/100),
   ("seguridad", 10/100), ("consistencia_estilo", 10/100)]

/-- `LanguageAnalyzer.calculate_empathy_score`: for each weighted category
whose dictionary is truthy, average its (numeric) values and weight the
average; the score is the sum of the collected terms, `0.0` when none were
collected.  All stored values are rationals here, so the source's
`isinstance` numeric filter keeps every value. -/
def calculate_empathy_score (metrics : Metrics) : ℚ :=
  (empathyWeights.filterMap (fun cw =>
      let category_metrics := (alookup metrics cw.1).getD []
      if category_metrics.isEmpty then none
      else
        let values := category_metrics.map Prod.snd
        if values.isEmpty then none
        else some (listMean values * cw.2))).sum

/-- Result record of `LanguageAnalyzer.get_summary`. -/
structure Summary where
  language : String
  total_files : ℕ
  total_lines : ℕ
  metrics : Metrics
  empathy_score : ℚ

/-- `LanguageAnalyzer.get_summary`. -/
def get_summary (spec : AnalyzerSpec) (st : AnalyzerState) : Summary :=
  { language := spec.name,
    total_files := st.total_files,
    total_lines := st.total_lines,
    metrics := st.metrics,
    empathy_score := calculate_empathy_score st.metrics }

/-! ## Duplication analyzer (`duplication_analyzer.py`) -/

/-- Python whitespace class for `str.strip` and the regex class `\s`. -/
def isPySpace (c : Char) : Bool :=
  c = ' ' || c = '\t' || c = '\n' || c = '\r' || c = '\x0b' || c = '\x0c'

/-- Python `str.strip()` on a character list. -/
def pyStrip (cs : List Char) : List Char :=
  ((cs.dropWhile isPySpace).reverse.dropWhile isPySpace).reverse

/-- Python `str.strip()` on strings. -/
def pyStripStr (s : String) : String :=
  String.mk (pyStrip s.toList)

/-- Does the character list start with the three-character closing arrow of
an HTML comment? -/
def isArrowStart : List Char → Bool
  | '-' :: '-' :: '>' :: _ => true
  | _ => false

/-- Locate the first minimal closing of an HTML comment: when the input
contains the closing arrow, return the suffix after its first occurrence. -/
def findArrow : List Char → Option (List Char)
  | [] => none
  | c :: rest =>
      if isArrowStart (c :: rest) then some (rest.drop 2) else findArrow rest

/-- Comment removal scan, structurally recursive on a step budget: every
step consumes at least one input character, so a budget of the input length
never runs out.  At each position the regex alternatives are tried leftmost
first: a line-comment match removes the rest of the line; an HTML comment
with a closing arrow is removed minimally and scanning continues after it;
otherwise the character is kept. -/
def stripCommentsFuel : ℕ → List Char → List Char
  | 0, _ => []
  | fuel + 1, cs =>
      match cs with
      | [] => []
      | '/' :: '/' :: _ => []
      | '#' :: _ => []
      | '<' :: '!' :: '-' :: '-' :: rest =>
          match findArrow rest with
          | some rest' => stripCommentsFuel fuel rest'
          | none => '<' :: '!' :: '-' :: '-' :: stripCommentsFuel fuel rest
      | c :: rest => c :: stripCommentsFuel fuel rest

/-- Comment removal step of `normalize_line`: the leftmost-first scan of the
regex alternation on a single line (dot never matches a newline and lines
contain none). -/
def stripComments (cs : List Char) : List Char :=
  stripCommentsFuel cs.length cs

/-- One-pass whitespace collapsing; `inRun` records whether the previous
character belonged to a whitespace run already replaced by a space. -/
def collapseWsAux (inRun : Bool) : List Char → List Char
  | [] => []
  | c :: rest =>
      if isPySpace c then
        if inRun then collapseWsAux true rest
        else ' ' :: collapseWsAux true rest
      else c :: collapseWsAux false rest

/-- Whitespace collapsing of the `\s+` substitution: every maximal run of
whitespace becomes a single space. -/
def collapseWs (cs : List Char) : List Char :=
  collapseWsAux false cs

/-- Configuration of a `DuplicationAnalyzer` instance. -/
structure DupConfig where
  min_block_size : ℕ
  ignore_whitespace : Bool

/-- The configuration `base.py` always uses:
`DuplicationAnalyzer(min_block_size=5, ignore_whitespace=True)`. -/
def dupCfg : DupConfig := { min_block_size := 5, ignore_whitespace := true }

/-- `DuplicationAnalyzer.normalize_line`: strip line comments via the pattern
alternation, then (with `ignore_whitespace`) strip the line and collapse
inner whitespace runs to single spaces. -/
def normalize_line (cfg : DupConfig) (line : List Char) : List Char :=
  let noComments := stripComments line
  if cfg.ignore_whitespace then collapseWs (pyStrip noComments) else noComments

/-- Python `content.split('\n')`: split on every newline, keeping empty
pieces; the result is never empty. -/
def splitLines (cs : List Char) : List (List Char) :=
  match cs with
  | [] => [[]]
  | c :: rest =>
      match splitLines rest with
      | [] => [[]]
      | l :: ls => if c = '\n' then [] :: l :: ls else (c :: l) :: ls

theorem splitLines_ne_nil (cs : List Char) : splitLines cs ≠ [] := by
  match cs with
  | [] => simp [splitLines]
  | c :: rest =>
      rw [splitLines]
      match splitLines rest with
      | [] => simp
      | l :: ls =>
          by_cases h : c = '\n' <;> simp [h]

/-- One extracted code block (the dictionary built by `extract_blocks`).
The MD5 `hash` is modelled as the normalized block text itself. -/
structure Block where
  hash : String
  content : String
  original_content : String
  file_path : String
  start_line : ℕ
  end_line : ℕ
  size : ℕ
deriving DecidableEq

/-- `DuplicationAnalyzer.extract_blocks`: slide a window of `min_block_size`
lines over the file; keep the normalized non-blank lines of the window and
emit a block when at least `min_block_size` of them remain. -/
def extract_blocks (cfg : DupConfig) (content : String) (file_path : String) :
    List Block :=
  let lines := splitLines content.toList
  (List.range (lines.length + 1 - cfg.min_block_size)).filterMap (fun i =>
    let window := (lines.drop i).take cfg.min_block_size
    let kept := window.filterMap (fun line =>
      let normalized := normalize_line cfg line
      if (pyStrip normalized).isEmpty then none else some normalized)
    if cfg.min_block_size ≤ kept.length then
      let block_content := String.mk (List.intercalate ['\n'] kept)
      some { hash := block_content,
             content := block_content,
             original_content := String.mk (List.intercalate ['\n']
               (window.filter (fun line =>
                 !(pyStrip (normalize_line cfg line)).isEmpty))),
             file_path := file_path,
             start_line := i + 1,
             end_line := i + cfg.min_block_size,
             size := kept.length }
    else none)

/-- Append a block to its hash group, creating the group at the end when the
hash is new (`defaultdict(list)` with dict insertion order). -/
def addToGroup (acc : List (String × List Block)) (b : Block) :
    List (String × List Block) :=
  match acc with
  | [] => [(b.hash, [b])]
  | (k, bs) :: rest =>
      if k = b.hash then (k, bs ++ [b]) :: rest else (k, bs) :: addToGroup rest b

/-- All blocks of the skipped-empty-content files, in file order
(the extraction loop of `find_duplicates`). -/
def allDupBlocks (cfg : DupConfig) (files : List (String × String)) : List Block :=
  (files.filter (fun pc => !(pyStripStr pc.2).isEmpty)).foldl
    (fun acc pc => acc ++ extract_blocks cfg pc.2 pc.1) []

/-- The `blocks_by_hash` grouping of `find_duplicates`. -/
def dupGroups (cfg : DupConfig) (files : List (String × String)) :
    List (String × List Block) :=
  (allDupBlocks cfg files).foldl addToGroup []

/-- The duplicate clusters: hash groups with at least two members, in
insertion order. -/
def dupClusters (cfg : DupConfig) (files : List (String × String)) :
    List (String × List Block) :=
  (dupGroups cfg files).filter (fun g => decide (1 < g.2.length))

/-- Size taken from the first block of a cluster (`blocks[0]['size']`). -/
def clusterSize (g : String × List Block) : ℕ :=
  match g.2 with
  | [] => 0
  | b :: _ => b.size

/-- Add `v` to a `defaultdict(int)` counter. -/
def bumpStat (acc : List (String × ℕ)) (k : String) (v : ℕ) : List (String × ℕ) :=
  match acc with
  | [] => [(k, v)]
  | (k', n) :: rest =>
      if k' = k then (k', n + v) :: rest else (k', n) :: bumpStat rest k v

/-- The `file_duplication_stats` accumulation: for every block occurrence of
every cluster, add the cluster size to the block's file. -/
def dupFileStats (cfg : DupConfig) (files : List (String × String)) :
    List (String × ℕ) :=
  (dupClusters cfg files).foldl
    (fun acc g => g.2.foldl (fun a b => bumpStat a b.file_path (clusterSize g)) acc) []

/-- Python `max(items, key=lambda x: x[1])`: the first item with maximal
second component, in iteration order. -/
def pyMaxBySnd (s : String × ℕ) (l : List (String × ℕ)) : String × ℕ :=
  l.foldl (fun best x => if best.2 < x.2 then x else best) s

/-- Python `round` (banker's rounding to the nearest integer; the source
rounds binary floats, modelled here over exact rationals). -/
def pyRoundInt (q : ℚ) : ℤ :=
  let f := ⌊q⌋
  let r := q - (f : ℚ)
  if r < 1/2 then f
  else if 1/2 < r then f + 1
  else if f % 2 = 0 then f else f + 1

/-- Python `round(q, 2)`. -/
def pyRound2 (q : ℚ) : ℚ :=
  (pyRoundInt (q * 100) : ℚ) / 100

/-- Line count of one file, `len(content.split('\n'))`. -/
def fileLineCount (content : String) : ℕ :=
  (splitLines content.toList).length

/-- Total line count over all input files. -/
def dupTotalLines (files : List (String × String)) : ℕ :=
  (files.map (fun pc => fileLineCount pc.2)).sum

/-- A duplicate cluster as stored in `duplicates_details`. -/
structure Cluster where
  occurrences : ℕ
  blocks : List Block
  size : ℕ
  content_preview : String

/-- The `mayor_duplicacion` sub-dictionary. -/
structure MayorDup where
  archivo : String
  porcentaje : ℚ
deriving DecidableEq

/-- The report dictionary returned by `find_duplicates` /
`analyze_repository_files`. -/
structure DupReport where
  porcentaje_global : ℚ
  bloques_encontrados : ℕ
  total_ocurrencias : ℕ
  lineas_duplicadas : ℕ
  archivos_afectados : List String
  total_archivos : ℕ
  mayor_duplicacion : Option MayorDup
  duplicates_details : List (String × Cluster)
  summary : String
  error : Option String

/-- `DuplicationAnalyzer._generate_summary`. -/
def generate_summary (nDuplicates : ℕ) (percentage : ℚ) (affected_files : ℕ) :
    String :=
  let level_description : String × String :=
    if percentage < 5 then ("Excelente", "Muy poca duplicación detectada")
    else if percentage < 15 then ("Bueno", "Duplicación dentro de límites aceptables")
    else if percentage < 25 then ("Moderado", "Duplicación moderada, considere refactorización")
    else ("Alto", "Alta duplicación, refactorización recomendada")
  level_description.1 ++ ": " ++ level_description.2 ++ ". " ++
    toString nDuplicates ++ " bloques duplicados en " ++
    toString affected_files ++ " archivos."

/-- `DuplicationAnalyzer.find_duplicates`: extract and group the blocks of
all non-blank files, filter the hash groups to duplicate clusters, and
assemble the statistics dictionary. -/
def find_duplicates (cfg : DupConfig) (files : List (String × String)) :
    DupReport :=
  let duplicates := dupClusters cfg files
  let total_duplicated_lines :=
    duplicates.foldl (fun acc g => acc + clusterSize g * (g.2.length - 1)) 0
  let files_with_duplicates :=
    duplicates.foldl (fun acc g => g.2.foldl
      (fun a b => if b.file_path ∈ a then a else a ++ [b.file_path]) acc) []
  let total_lines := dupTotalLines files
  let duplication_percentage :=
    (total_duplicated_lines : ℚ) / ((max total_lines 1 : ℕ) : ℚ) * 100
  let stats := dupFileStats cfg files
  let most_duplicated_file :=
    match stats with
    | [] => none
    | s :: rest => some (pyMaxBySnd s rest)
  { porcentaje_global := pyRound2 duplication_percentage,
    bloques_encontrados := duplicates.length,
    total_ocurrencias := (duplicates.map (fun g => g.2.length)).sum,
    lineas_duplicadas := total_duplicated_lines,
    archivos_afectados := files_with_duplicates,
    total_archivos := files.length,
    mayor_duplicacion := most_duplicated_file.map (fun fs =>
      { archivo := fs.1,
        porcentaje := pyRound2 ((fs.2 : ℚ) /
          ((max (fileLineCount ((alookup files fs.1).getD "")) 1 : ℕ) : ℚ) * 100) }),
    duplicates_details := duplicates.map (fun g =>
      (g.1,
       { occurrences := g.2.length,
         blocks := g.2,
         size := clusterSize g,
         content_preview :=
           let c := match g.2 with | [] => "" | b :: _ => b.content
           if 200 < c.length then c.take 200 ++ "..." else c })),
    summary := generate_summary duplicates.length duplication_percentage
      files_with_duplicates.length,
    error := none }

/-- `DuplicationAnalyzer.analyze_repository_files`: the outcome of the
`try` block around `find_duplicates` (modelled by an `Except`) is returned
as-is on success; any exception is converted into the zeroed report that
carries the exception message — nothing is re-raised. -/
def analyze_repository_files (tried : Except String DupReport)
    (files : List (String × String)) : DupReport :=
  match tried with
  | Except.ok r => r
  | Except.error e =>
      { porcentaje_global := 0,
        bloques_encontrados := 0,
        total_ocurrencias := 0,
        lineas_duplicadas := 0,
        archivos_afectados := [],
        total_archivos := files.length,
        mayor_duplicacion := none,
        duplicates_details := [],
        summary := "Error en el análisis de duplicación",
        error := some e }

/-! ## Analyzer factory (`factory.py`) -/

/-- ASCII lower-casing of one character. -/
def pyLowerChar (c : Char) : Char :=
  if 'A' ≤ c ∧ c ≤ 'Z' then Char.ofNat (c.toNat + 32) else c

/-- Python `str.lower()` (the registry keys are ASCII). -/
def pyLower (s : String) : String :=
  String.mk (s.toList.map pyLowerChar)

/-- Registry state of `AnalyzerFactory`: the name-to-class `_analyzers`
dictionary and the `_extension_map` dictionary.  A "class" is modelled by
its `AnalyzerSpec`; instantiating the class yields that spec. -/
structure FactoryState where
  analyzers : List (String × AnalyzerSpec)
  extension_map : List (String × String)

/-- `AnalyzerFactory.register_analyzer`: store the class under the
lower-cased language name.  The extension map is not touched. -/
def register_analyzer (st : FactoryState) (language : String)
    (analyzer_class : AnalyzerSpec) : FactoryState :=
  { st with analyzers := aset st.analyzers (pyLower language) analyzer_class }

/-- `AnalyzerFactory.get_analyzer`: instantiate the class registered under
the lower-cased name, if any. -/
def get_analyzer (st : FactoryState) (language : String) : Option AnalyzerSpec :=
  alookup st.analyzers (pyLower language)

/-- `os.path.splitext(p)[1]`: the extension of the final path component,
starting at its last dot; a basename consisting only of leading dots before
that dot has no extension. -/
def splitextExt (p : String) : String :=
  let base := (p.toList.reverse.takeWhile (fun c => c ≠ '/')).reverse
  let revBase := base.reverse
  let extRev := revBase.takeWhile (fun c => c ≠ '.')
  if extRev.length = base.length then ""
  else
    let beforeDot := revBase.drop (extRev.length + 1)
    if beforeDot.any (fun c => c ≠ '.') then String.mk ('.' :: extRev.reverse)
    else ""

/-- `AnalyzerFactory.get_analyzer_for_file`: map the lower-cased extension
to a language through `_extension_map`, then instantiate that language's
analyzer. -/
def get_analyzer_for_file (st : FactoryState) (file_path : String) :
    Option AnalyzerSpec :=
  match alookup st.extension_map (pyLower (splitextExt file_path)) with
  | some language => get_analyzer st language
  | none => none

/-- The class-level `_extension_map` of `factory.py`, in source order. -/
def defaultExtensionMap : List (String × String) :=
  [(".py", "python"), (".js", "javascript"), (".jsx", "javascript"),
   (".mjs", "javascript"), (".ts", "typescript"), (".tsx", "typescript"),
   (".java", "java"), (".go", "go"), (".cs", "csharp"), (".cpp", "cpp"),
   (".cc", "cpp"), (".cxx", "cpp"), (".hpp", "cpp"), (".h", "cpp"),
   (".hh", "cpp"), (".php", "php"), (".php3", "php"), (".php4", "php"),
   (".php5", "php"), (".phtml", "php"), (".rb", "ruby"), (".rake", "ruby"),
   (".gemspec", "ruby"), (".swift", "swift"), (".html", "html"),
   (".htm", "html"), (".xhtml", "html"), (".css", "css"), (".scss", "css"),
   (".sass", "css"), (".less", "css")]

/-- Modelled from the spec: the concrete analyzer classes other than
`TypeScriptAnalyzer` (`python_analyzer.py`, `javascript_analyzer.py`, ...)
are not under `src/`; only their language names and extension sets are
documented (spec §4.2-§4.3 and the `factory.py` header).  Their per-file
analysis bodies, irrelevant to the registry claims, are a caller-supplied
parameter `impl`. -/
def defaultAnalyzers (impl : String → String → String → Except String FileMetrics) :
    List (String × AnalyzerSpec) :=
  [("python", { name := "Python", extensions := [".py"], analyzeFile := impl "python" }),
   ("javascript", { name := "JavaScript", extensions := [".js", ".jsx", ".mjs"],
                    analyzeFile := impl "javascript" }),
   ("typescript", { name := "TypeScript", extensions := [".ts", ".tsx"],
                    analyzeFile := impl "typescript" }),
   ("java", { name := "Java", extensions := [".java"], analyzeFile := impl "java" }),
   ("go", { name := "Go", extensions := [".go"], analyzeFile := impl "go" }),
   ("c#", { name := "C#", extensions := [".cs"], analyzeFile := impl "c#" }),
   ("csharp", { name := "C#", extensions := [".cs"], analyzeFile := impl "csharp" }),
   ("c++", { name := "C++", extensions := [".cpp", ".cc", ".cxx", ".hpp", ".h", ".hh"],
             analyzeFile := impl "c++" }),
   ("cpp", { name := "C++", extensions := [".cpp", ".cc", ".cxx", ".hpp", ".h", ".hh"],
             analyzeFile := impl "cpp" }),
   ("php", { name := "PHP", extensions := [".php", ".php3", ".php4", ".php5", ".phtml"],
             analyzeFile := impl "php" }),
   ("ruby", { name := "Ruby", extensions := [".rb", ".rake", ".gemspec"],
              analyzeFile := impl "ruby" }),
   ("swift", { name := "Swift", extensions := [".swift"], analyzeFile := impl "swift" }),
   ("html", { name := "HTML", extensions := [".html", ".htm", ".xhtml"],
              analyzeFile := impl "html" }),
   ("css", { name := "CSS", extensions := [".css", ".scss", ".sass", ".less"],
             analyzeFile := impl "css" })]

/-- The factory's initial class-level state. -/
def defaultFactory (impl : String → String → String → Except String FileMetrics) :
    FactoryState :=
  { analyzers := defaultAnalyzers impl, extension_map := defaultExtensionMap }

/-- Per-language entry of `results['languages']` in
`analyze_multi_language_project`.  The dependency, pattern, performance and
comment reports come from analyzers outside `src/` and feed neither
`total_metrics` nor any claim, so they are not carried here. -/
structure LangResult where
  metrics : Metrics
  summary : Summary
  duplication : DupReport
  file_count : ℕ

/-- The `total_metrics` dictionary of `_calculate_aggregate_metrics`. -/
structure TotalMetrics where
  total_files : ℕ
  total_lines : ℕ
  languages_analyzed : List String
  overall_empathy_score : ℚ

/-- The `ProjectAnalysis` result of `analyze_multi_language_project`;
`total_metrics` is `none` when `_calculate_aggregate_metrics` returned the
empty dictionary. -/
structure ProjectAnalysis where
  languages : List (String × LangResult)
  total_metrics : Option TotalMetrics
  primary_language : Option String

/-- Append a file to its language group, creating the group at the end when
the language is new. -/
def addToLangGroup (acc : List (String × List (String × String)))
    (language : String) (pc : String × String) :
    List (String × List (String × String)) :=
  match acc with
  | [] => [(language, [pc])]
  | (k, fs) :: rest =>
      if k = language then (k, fs ++ [pc]) :: rest
      else (k, fs) :: addToLangGroup rest language pc

/-- The file-grouping loop of `analyze_multi_language_project`: group by the
`get_language_name()` of the analyzer found for each file's extension. -/
def groupFilesByLanguage (st : FactoryState) (files : List (String × String)) :
    List (String × List (String × String)) :=
  files.foldl (fun acc pc =>
    match get_analyzer_for_file st pc.1 with
    | some spec => addToLangGroup acc spec.name pc
    | none => acc) []

/-- `AnalyzerFactory._calculate_aggregate_metrics`: an empty dictionary for
an empty `language_results`, otherwise total file/line counts and the
file-count-weighted empathy score accumulated in iteration order. -/
def calculate_aggregate_metrics (language_results : List (String × LangResult)) :
    Option TotalMetrics :=
  if language_results.isEmpty then none
  else
    let total_files : ℕ := (language_results.map (fun l => l.2.file_count)).sum
    let total_lines : ℕ := (language_results.map (fun l => l.2.summary.total_lines)).sum
    let weighted_empathy := language_results.foldl
      (fun acc l => acc + l.2.summary.empathy_score *
        ((l.2.file_count : ℚ) / (total_files : ℚ))) 0
    some { total_files := total_files,
           total_lines := total_lines,
           languages_analyzed := language_results.map Prod.fst,
           overall_empathy_score := weighted_empathy }

/-- Python `max(groups, key=...)` over the language groups: the first group
with the strictly largest file list. -/
def primaryOfGroups (groups : List (String × List (String × String))) :
    Option String :=
  match groups with
  | [] => none
  | g :: rest =>
      some ((rest.foldl (fun best x =>
        if best.2.length < x.2.length then x else best) g).1)

/-- `AnalyzerFactory.analyze_multi_language_project`: group the files by
language, run each language's analyzer (a fresh instance) over its group
together with the duplication analysis, and fold the summaries into the
aggregate metrics.  The analyzer registered per language key is the same
`spec` the grouping found, as in the default registry where the
name/lower-name round trip returns the same class. -/
def analyze_multi_language_project (st : FactoryState)
    (files : List (String × String)) : ProjectAnalysis :=
  let language_files := groupFilesByLanguage st files
  let langs := language_files.foldl (fun acc lf =>
    match get_analyzer st (pyLower lf.1) with
    | some spec =>
        let res := analyze_files spec initAnalyzerState lf.2
        acc ++ [(lf.1,
          { metrics := res.2,
            summary := get_summary spec res.1,
            duplication := analyze_repository_files
              (Except.ok (find_duplicates dupCfg lf.2)) lf.2,
            file_count := lf.2.length })]
    | none => acc) []
  { languages := langs,
    total_metrics := calculate_aggregate_metrics langs,
    primary_language := primaryOfGroups language_files }

/-! ## TypeScript analyzer (`typescript_analyzer.py`) -/

/-- The post-processing of `TypeScriptAnalyzer.analyze_file` on top of the
base JavaScript metrics (`super().analyze_file`, whose body lives outside
`src/` and enters here as `base`): store the TypeScript block, boost the
documentation coverage by a capped 0.2 only above 70% type coverage, and
update the security validation score by a capped `type_coverage * 0.2`. -/
def typescript_boost (base : FileMetrics) (type_coverage : ℚ)
    (interfaces type_aliases enums : ℚ) : FileMetrics :=
  let m1 := aset base "typescript"
    [("type_coverage", type_coverage), ("interfaces", interfaces),
     ("type_aliases", type_aliases), ("enums", enums)]
  let m2 :=
    if 7/10 < type_coverage then
      let current_doc_score := (alookup ((alookup m1 "documentacion").getD [])
        "cobertura").getD 0
      aset m1 "documentacion" (aset ((alookup m1 "documentacion").getD [])
        "cobertura" (min 1 (current_doc_score + 2/10)))
    else m1
  let current_security := (alookup ((alookup m2 "seguridad").getD [])
    "validacion").getD 0
  aset m2 "seguridad" (aset ((alookup m2 "seguridad").getD [])
    "validacion" (min 1 (current_security + type_coverage * (2/10))))

/-! ## Claim-side definitions (formalising the spec's wording) -/

/-- Number of extension-matching files of one call whose analysis succeeds
(the files `analyze_files` counts). -/
def countAnalyzedFiles (spec : AnalyzerSpec) (files : List (String × String)) : ℕ :=
  ((files.filter (fun pc => should_analyze_file spec pc.1)).filter
    (fun pc => (spec.analyzeFile pc.1 pc.2).toOption.isSome)).length

/-- Sum of the newline counts of those same files. -/
def linesAnalyzedFiles (spec : AnalyzerSpec) (files : List (String × String)) : ℕ :=
  (((files.filter (fun pc => should_analyze_file spec pc.1)).filter
    (fun pc => (spec.analyzeFile pc.1 pc.2).toOption.isSome)).map
    (fun pc => countNewlines pc.2)).sum

/-- Spec wording for C4: sum over all duplicate clusters of
block size times (occurrences minus one). -/
def claimedDuplicatedLines (cfg : DupConfig) (files : List (String × String)) : ℕ :=
  ((dupClusters cfg files).map (fun g => clusterSize g * (g.2.length - 1))).sum

/-- Spec wording for C4: duplicated lines over total lines, times 100,
rounded to two decimals. -/
def claimedPercentage (cfg : DupConfig) (files : List (String × String)) : ℚ :=
  pyRound2 ((claimedDuplicatedLines cfg files : ℚ) / (dupTotalLines files : ℚ) * 100)

/-- Total file count over the analyzed languages. -/
def languagesTotalFileCount (langs : List (String × LangResult)) : ℕ :=
  (langs.map (fun l => l.2.file_count)).sum

/-- Spec wording for C8: sum over analyzed languages of empathy score times
file count divided by the total file count. -/
def claimedOverallScore (langs : List (String × LangResult)) : ℚ :=
  (langs.map (fun l => l.2.summary.empathy_score * (l.2.file_count : ℚ) /
    (languagesTotalFileCount langs : ℚ))).sum

/-- All leaf metric values of a nested metrics dictionary lie in the unit
interval. -/
def valuesIn01 (m : List (String × List (String × ℚ))) : Prop :=
  ∀ cm ∈ m, ∀ lv ∈ cm.2, 0 ≤ lv.2 ∧ lv.2 ≤ 1

instance (m : List (String × List (String × ℚ))) : Decidable (valuesIn01 m) := by
  unfold valuesIn01
  infer_instance

/-! ## General helper lemmas -/

theorem foldl_add_map_nat {α : Type} (f : α → ℕ) (l : List α) (a : ℕ) :
    l.foldl (fun acc x => acc + f x) a = a + (l.map f).sum := by
  induction l generalizing a with
  | nil => simp
  | cons x tl ih => simp [ih, add_assoc]

theorem foldl_add_map_rat {α : Type} (f : α → ℚ) (l : List α) (a : ℚ) :
    l.foldl (fun acc x => acc + f x) a = a + (l.map f).sum := by
  induction l generalizing a with
  | nil => simp
  | cons x tl ih => simp [ih, add_assoc]

theorem toOption_eq_some_iff {ε α : Type} (x : Except ε α) (a : α) :
    x.toOption = some a ↔ x = Except.ok a := by
  cases x <;> simp [Except.toOption]

theorem listMean_bounds (l : List ℚ) (hne : l ≠ [])
    (hb : ∀ x ∈ l, 0 ≤ x ∧ x ≤ 1) : 0 ≤ listMean l ∧ listMean l ≤ 1 := by
  have hlen : (0 : ℚ) < (l.length : ℚ) := by
    have : 0 < l.length := List.length_pos.mpr hne
    exact_mod_cast this
  have hsum0 : (0 : ℚ) ≤ l.sum := List.sum_nonneg (fun x hx => (hb x hx).1)
  have hsumle : l.sum ≤ (l.length : ℚ) := by
    calc l.sum ≤ l.length • (1 : ℚ) :=
          List.sum_le_card_nsmul l 1 (fun x hx => (hb x hx).2)
    _ = (l.length : ℚ) := by simp
  constructor
  · exact div_nonneg hsum0 (le_of_lt hlen)
  · rw [listMean, div_le_one hlen]
    exact hsumle

theorem filterMap_sum_bounds {α : Type} (g : α → ℚ) (f : α → Option ℚ)
    (l : List α)
    (hpos : ∀ x ∈ l, 0 ≤ g x)
    (hterm : ∀ x ∈ l, ∀ t, f x = some t → 0 ≤ t ∧ t ≤ g x) :
    0 ≤ (l.filterMap f).sum ∧ (l.filterMap f).sum ≤ (l.map g).sum := by
  induction l with
  | nil => simp
  | cons x tl ih =>
      have hx := fun t ht => hterm x (List.mem_cons_self x tl) t ht
      have hrec := ih (fun y hy => hpos y (List.mem_cons_of_mem x hy))
        (fun y hy t ht => hterm y (List.mem_cons_of_mem x hy) t ht)
      cases hf : f x with
      | none =>
          rw [List.filterMap_cons_none hf]
          constructor
          · exact hrec.1
          · calc (tl.filterMap f).sum ≤ (tl.map g).sum := hrec.2
            _ ≤ g x + (tl.map g).sum := by
                have := hpos x (List.mem_cons_self x tl)
                linarith
            _ = ((x :: tl).map g).sum := by simp
      | some t =>
          rw [List.filterMap_cons_some hf]
          have hxt := hx t hf
          constructor
          · simp only [List.sum_cons]
            linarith [hrec.1, hxt.1]
          · simp only [List.sum_cons, List.map_cons]
            linarith [hrec.2, hxt.2]

theorem alookup2_chain_aset_same (m : Metrics) (cat leaf : String) (v : ℚ) :
    alookup ((alookup (aset m cat
        (aset ((alookup m cat).getD []) leaf v)) cat).getD []) leaf = some v := by
  rw [alookup_aset_self]
  simp only [Option.getD_some]
  exact alookup_aset_self _ _ _

theorem alookup2_chain_aset_other (m : Metrics) (cat cat' leaf : String)
    (w : List (String × ℚ)) (h : cat ≠ cat') :
    alookup ((alookup (aset m cat w) cat').getD []) leaf =
      alookup ((alookup m cat').getD []) leaf := by
  rw [alookup_aset_ne _ _ _ _ h]

theorem pyMaxBySnd_spec (s : String × ℕ) (l : List (String × ℕ)) :
    (pyMaxBySnd s l = s ∨ pyMaxBySnd s l ∈ l) ∧
    s.2 ≤ (pyMaxBySnd s l).2 ∧
    ∀ x ∈ l, x.2 ≤ (pyMaxBySnd s l).2 := by
  induction l generalizing s with
  | nil => simp [pyMaxBySnd]
  | cons x tl ih =>
      have hstep : pyMaxBySnd s (x :: tl) =
          pyMaxBySnd (if s.2 < x.2 then x else s) tl := by
        simp [pyMaxBySnd]
      set s' := if s.2 < x.2 then x else s with hs'
      have hrec := ih s'
      rw [hstep]
      refine ⟨?_, ?_, ?_⟩
      · rcases hrec.1 with hcase | hcase
        · rw [hcase, hs']
          by_cases hlt : s.2 < x.2
          · simp [hlt]
          · simp [hlt]
        · exact Or.inr (List.mem_cons_of_mem x hcase)
      · have hs's : s.2 ≤ s'.2 := by
          rw [hs']
          by_cases hlt : s.2 < x.2
          · simp [hlt]
            omega
          · simp [hlt]
        exact le_trans hs's hrec.2.1
      · intro y hy
        rcases List.mem_cons.mp hy with hy | hy
        · subst hy
          have hxs' : y.2 ≤ s'.2 := by
            rw [hs']
            by_cases hlt : s.2 < y.2
            · simp [hlt]
            · simp [hlt]
              omega
          exact le_trans hxs' hrec.2.1
        · exact hrec.2.2 y hy

/-! ## Concrete inputs used by counterexamples and witnesses -/

/-- A five-line file consisting of one block. -/
def exS : String := "p1\np2\np3\np4\np5"

/-- A seventeen-line file holding one copy of the `p` block and two copies
of the `q` block, separated by blank lines. -/
def exL : String :=
  "p1\np2\np3\np4\np5\n\nq1\nq2\nq3\nq4\nq5\n\nq1\nq2\nq3\nq4\nq5"

/-- Two-file input: the small file duplicates all five of its lines, the
large file holds more duplicated lines in absolute terms. -/
def exFiles : List (String × String) := [("a.py", exS), ("b.py", exL)]

/-- Placeholder per-file analysis for the analyzer classes whose bodies are
outside `src/`; never invoked by the registry claims. -/
def noImpl : String → String → String → Except String FileMetrics :=
  fun _ _ _ => Except.error "not modelled"

/-- A fresh analyzer class handling the extension of claim C2. -/
def xyzClass : AnalyzerSpec :=
  { name := "XyzAnalyzer", extensions := [".xyz"], analyzeFile := noImpl "xyz" }

/-- Concrete per-file result of an analyzer whose modularity metric is a
plain function count, as the spec's data model allows. -/
def toyCountResult : FileMetrics := [("modularidad", [("funciones", 20)])]

/-- An analyzer reporting twenty functions in every file. -/
def toySpec : AnalyzerSpec :=
  { name := "Toy", extensions := [".py"],
    analyzeFile := fun _ _ => Except.ok toyCountResult }

/-- Concrete per-file result with all values inside the unit interval. -/
def toyBoundedResult : FileMetrics :=
  [("nombres", [("descriptividad", 1/2)]), ("pruebas", [("cobertura", 3/4)])]

/-- An analyzer producing only unit-interval metric values. -/
def toyBoundedSpec : AnalyzerSpec :=
  { name := "Bounded", extensions := [".py"],
    analyzeFile := fun _ _ => Except.ok toyBoundedResult }

/-- Base JavaScript metrics of one TypeScript file before the TypeScript
post-processing. -/
def tsBase0 : FileMetrics :=
  [("documentacion", [("cobertura", 1/2)]), ("seguridad", [("validacion", 3/10)])]

/-! ## Claim theorems -/

/-- C7: `analyze_repository_files` never raises: on any exception from the
duplication analysis it returns the zeroed report (zero percentage, block,
occurrence and line counts, no affected files, no `mayor_duplicacion`)
carrying the exception message in the `error` field, and on success it
returns the `find_duplicates` report unchanged. -/
theorem C7_detector_error_boundary (e : String) (files : List (String × String)) :
    (analyze_repository_files (Except.error e) files).porcentaje_global = 0 ∧
    (analyze_repository_files (Except.error e) files).bloques_encontrados = 0 ∧
    (analyze_repository_files (Except.error e) files).total_ocurrencias = 0 ∧
    (analyze_repository_files (Except.error e) files).lineas_duplicadas = 0 ∧
    (analyze_repository_files (Except.error e) files).archivos_afectados = [] ∧
    (analyze_repository_files (Except.error e) files).mayor_duplicacion = none ∧
    (analyze_repository_files (Except.error e) files).error = some e ∧
    ∀ rep, analyze_repository_files (Except.ok rep) files = rep := by
  refine ⟨rfl, rfl, rfl, rfl, rfl, rfl, rfl, fun rep => rfl⟩

/-- C7 witness at a concrete exception and file map. -/
theorem C7_detector_error_boundary_witness :
    (analyze_repository_files (Except.error "boom") [("a.py", "x")]).porcentaje_global = 0 ∧
    (analyze_repository_files (Except.error "boom") [("a.py", "x")]).error = some "boom" := by
  have h := C7_detector_error_boundary "boom" [("a.py", "x")]
  exact ⟨h.1, h.2.2.2.2.2.2.1⟩

/-- C9: on an empty file map `analyze_files` leaves the fresh analyzer state
unchanged and returns the initial metrics, in which every one of the eight
categories is an empty mapping, and `calculate_empathy_score` then gives 0. -/
theorem C9_empty_input (spec : AnalyzerSpec) :
    analyze_files spec initAnalyzerState [] = (initAnalyzerState, initMetrics) ∧
    (∀ cat ∈ categoryNames, alookup initMetrics cat = some []) ∧
    calculate_empathy_score initMetrics = 0 := by
  refine ⟨rfl, by decide, by decide⟩

/-- C9 witness at a concrete analyzer. -/
theorem C9_empty_input_witness :
    analyze_files toySpec initAnalyzerState [] = (initAnalyzerState, initMetrics) ∧
    calculate_empathy_score initMetrics = 0 := by
  have h := C9_empty_input toySpec
  exact ⟨h.1, h.2.2⟩

/-- C10: the `total_files` and `total_lines` counters accumulate across two
`analyze_files` calls on the same instance and are reported by
`get_summary`: after analysing F1 and then F2 they hold the number of
extension-matching successfully analysed files of F1 plus F2 and the sum of
the newline counts of those same files. -/
theorem C10_counters_accumulate (spec : AnalyzerSpec)
    (F1 F2 : List (String × String)) :
    (get_summary spec (analyze_files spec
        (analyze_files spec initAnalyzerState F1).1 F2).1).total_files =
      countAnalyzedFiles spec F1 + countAnalyzedFiles spec F2 ∧
    (get_summary spec (analyze_files spec
        (analyze_files spec initAnalyzerState F1).1 F2).1).total_lines =
      linesAnalyzedFiles spec F1 + linesAnalyzedFiles spec F2 := by
  constructor
  · simp [get_summary, analyze_files, countAnalyzedFiles, initAnalyzerState]
  · simp [get_summary, analyze_files, linesAnalyzedFiles, initAnalyzerState]

/-- C10 witness at a concrete analyzer and two concrete file maps. -/
theorem C10_counters_accumulate_witness :
    (get_summary toySpec (analyze_files toySpec
        (analyze_files toySpec initAnalyzerState [("a.py", "x\ny"), ("b.txt", "z")]).1
        [("c.py", "u\nv\nw")]).1).total_files = 2 ∧
    (get_summary toySpec (analyze_files toySpec
        (analyze_files toySpec initAnalyzerState [("a.py", "x\ny"), ("b.txt", "z")]).1
        [("c.py", "u\nv\nw")]).1).total_lines = 3 := by
  have h := C10_counters_accumulate toySpec [("a.py", "x\ny"), ("b.txt", "z")]
    [("c.py", "u\nv\nw")]
  exact ⟨by rw [h.1]; decide, by rw [h.2]; decide⟩

/-- C5 counterexample: with type coverage 1/2 (at or below the 70%
threshold) the TypeScript post-processing still changes the security score
(0.3 becomes 0.4), so the scores are not left as the base JavaScript
analysis produced them. -/
theorem C5_counterexample :
    ((1 : ℚ)/2 ≤ 7/10) ∧
    alookup2 tsBase0 "seguridad" "validacion" = some (3/10) ∧
    alookup2 (typescript_boost tsBase0 (1/2) 1 0 0) "seguridad" "validacion" =
      some (2/5) ∧
    ((2 : ℚ)/5 ≠ 3/10) := by
  have hts_seg : ("typescript" : String) ≠ "seguridad" := by decide
  refine ⟨by norm_num, by simp [alookup2, alookup, tsBase0], ?_, by norm_num⟩
  unfold alookup2
  simp only [typescript_boost]
  rw [if_neg (by norm_num)]
  rw [alookup2_chain_aset_same, alookup2_chain_aset_other _ _ _ _ _ hts_seg]
  have hbase : alookup ((alookup tsBase0 "seguridad").getD []) "validacion" =
      some (3/10) := by simp [alookup, tsBase0]
  rw [hbase]
  norm_num

/-- C5 amended: only the documentation bonus is gated on coverage strictly
above 0.7 (then +0.2 capped at 1.0, otherwise unchanged); the security
score is updated unconditionally to the capped base value plus
`type_coverage * 0.2`. -/
theorem C5_typescript_bonus (base : FileMetrics) (cov i t e : ℚ) :
    (cov ≤ 7/10 →
      alookup2 (typescript_boost base cov i t e) "documentacion" "cobertura" =
        alookup2 base "documentacion" "cobertura") ∧
    (7/10 < cov →
      alookup2 (typescript_boost base cov i t e) "documentacion" "cobertura" =
        some (min 1 ((alookup2 base "documentacion" "cobertura").getD 0 + 2/10))) ∧
    alookup2 (typescript_boost base cov i t e) "seguridad" "validacion" =
      some (min 1 ((alookup2 base "seguridad" "validacion").getD 0 + cov * (2/10))) := by
  have hts_doc : ("typescript" : String) ≠ "documentacion" := by decide
  have hts_seg : ("typescript" : String) ≠ "seguridad" := by decide
  have hdoc_seg : ("documentacion" : String) ≠ "seguridad" := by decide
  have hseg_doc : ("seguridad" : String) ≠ "documentacion" := by decide
  unfold alookup2
  simp only [typescript_boost]
  by_cases hcov : 7/10 < cov
  · rw [if_pos hcov]
    refine ⟨fun hle => absurd hcov (not_lt.mpr hle), fun _ => ?_, ?_⟩
    · rw [alookup2_chain_aset_other _ _ _ _ _ hseg_doc,
        alookup2_chain_aset_same,
        alookup2_chain_aset_other _ _ _ _ _ hts_doc]
    · rw [alookup2_chain_aset_same,
        alookup2_chain_aset_other _ _ _ _ _ hdoc_seg,
        alookup2_chain_aset_other _ _ _ _ _ hts_seg]
  · rw [if_neg hcov]
    refine ⟨fun _ => ?_, fun hlt => absurd hlt hcov, ?_⟩
    · rw [alookup2_chain_aset_other _ _ _ _ _ hseg_doc,
        alookup2_chain_aset_other _ _ _ _ _ hts_doc]
    · rw [alookup2_chain_aset_same,
        alookup2_chain_aset_other _ _ _ _ _ hts_seg]

/-- C5 amended witness: below the threshold the documentation score is kept
and the security score is the capped unconditional bonus; above the
threshold the documentation bonus applies. -/
theorem C5_typescript_bonus_witness :
    (alookup2 (typescript_boost tsBase0 (1/2) 1 0 0) "documentacion" "cobertura" =
      alookup2 tsBase0 "documentacion" "cobertura") ∧
    (alookup2 (typescript_boost tsBase0 (9/10) 1 0 0) "documentacion" "cobertura" =
      some (min 1 ((alookup2 tsBase0 "documentacion" "cobertura").getD 0 + 2/10))) ∧
    alookup2 (typescript_boost tsBase0 (1/2) 1 0 0) "seguridad" "validacion" =
      some (min 1 ((alookup2 tsBase0 "seguridad" "validacion").getD 0 + (1/2) * (2/10))) := by
  refine ⟨(C5_typescript_bonus tsBase0 (1/2) 1 0 0).1 (by norm_num),
    (C5_typescript_bonus tsBase0 (9/10) 1 0 0).2.1 (by norm_num),
    (C5_typescript_bonus tsBase0 (1/2) 1 0 0).2.2⟩

/-- C2 counterexample: registering a fresh analyzer class whose extension
set contains ".xyz" does not make `get_analyzer_for_file("foo.xyz")` return
an instance of it — the extension map is never updated, so the lookup still
returns no analyzer. -/
theorem C2_counterexample :
    (".xyz" ∈ xyzClass.extensions) ∧
    get_analyzer_for_file (register_analyzer (defaultFactory noImpl) "xyz" xyzClass)
      "foo.xyz" = none := by
  exact ⟨by simp [xyzClass], rfl⟩

/-- C2 amended: registering a class under a fresh language name makes
`get_analyzer` return an instance of it, leaves `get_analyzer_for_file`
unchanged on every path (in particular on every previously mapped
extension), and for an extension absent from the extension map — such as
the new class's own ".xyz" — `get_analyzer_for_file` still returns no
analyzer. -/
theorem C2_register_analyzer (st : FactoryState) (language : String)
    (cls : AnalyzerSpec)
    (hfresh : alookup st.analyzers (pyLower language) = none)
    (hvals : ∀ el ∈ st.extension_map, pyLower el.2 ≠ pyLower language) :
    get_analyzer (register_analyzer st language cls) language = some cls ∧
    (∀ p, get_analyzer_for_file (register_analyzer st language cls) p =
      get_analyzer_for_file st p) := by
  constructor
  · unfold get_analyzer register_analyzer
    exact alookup_aset_self _ _ _
  · intro p
    unfold get_analyzer_for_file register_analyzer
    cases hext : alookup st.extension_map (pyLower (splitextExt p)) with
    | none => rfl
    | some lang =>
        have hmem := mem_of_alookup_eq_some hext
        have hne : pyLower language ≠ pyLower lang :=
          fun h => hvals _ hmem h.symm
        unfold get_analyzer
        exact alookup_aset_ne _ _ _ _ hne

/-- C2 amended witness: at the default registry, registering the xyz class
makes `get_analyzer("xyz")` return it while a previously mapped extension
keeps resolving exactly as before. -/
theorem C2_register_analyzer_witness :
    get_analyzer (register_analyzer (defaultFactory noImpl) "xyz" xyzClass) "xyz" =
      some xyzClass ∧
    get_analyzer_for_file (register_analyzer (defaultFactory noImpl) "xyz" xyzClass)
      "main.py" = get_analyzer_for_file (defaultFactory noImpl) "main.py" := by
  have h := C2_register_analyzer (defaultFactory noImpl) "xyz" xyzClass rfl
    (by decide)
  exact ⟨h.1, h.2 "main.py"⟩

theorem one_le_fileLineCount (s : String) : 1 ≤ fileLineCount s :=
  List.length_pos.mpr (splitLines_ne_nil s.toList)

/-- C4: `lineas_duplicadas` is the sum over duplicate clusters of block size
times (occurrences minus one), and `porcentaje_global` is that count over
the total line count of all input files, times 100, rounded to two
decimals. -/
theorem C4_duplication_statistics (cfg : DupConfig) (files : List (String × String)) :
    (find_duplicates cfg files).lineas_duplicadas = claimedDuplicatedLines cfg files ∧
    (find_duplicates cfg files).porcentaje_global = claimedPercentage cfg files := by
  have hsum : (dupClusters cfg files).foldl
      (fun acc g => acc + clusterSize g * (g.2.length - 1)) 0 =
      claimedDuplicatedLines cfg files := by
    rw [foldl_add_map_nat]
    simp [claimedDuplicatedLines]
  constructor
  · simp only [find_duplicates]
    exact hsum
  · simp only [find_duplicates, claimedPercentage]
    rw [hsum]
    cases files with
    | nil =>
        have hcl : dupClusters cfg [] = [] := rfl
        simp [claimedDuplicatedLines, hcl, dupTotalLines]
    | cons pc rest =>
        have h1 : 1 ≤ dupTotalLines (pc :: rest) := by
          have := one_le_fileLineCount pc.2
          simp only [dupTotalLines, List.map_cons, List.sum_cons]
          omega
        have hmax : max (dupTotalLines (pc :: rest)) 1 = dupTotalLines (pc :: rest) := by
          omega
        rw [hmax]

theorem akeys_aggregateCat (m : Metrics) (fms : List FileMetrics)
    (cat leafIn leafOut : String) (h : cat ∈ akeys m) :
    akeys (aggregateCat m fms cat leafIn leafOut) = akeys m := by
  unfold aggregateCat
  by_cases hs : ((fms.filter (fun fm => !((alookup fm cat).getD []).isEmpty)).map
      (fun fm => (alookup ((alookup fm cat).getD []) leafIn).getD 0)).isEmpty
  · simp only [hs, if_pos]
  · simp only [hs, Bool.false_eq_true, if_false]
    exact akeys_aset_of_mem _ _ _ h

theorem akeys_aggregation_fold (rows : List (String × String × String))
    (fms : List FileMetrics) (m : Metrics)
    (h : ∀ r ∈ rows, r.1 ∈ akeys m) :
    akeys (rows.foldl (fun m r => aggregateCat m fms r.1 r.2.1 r.2.2) m) = akeys m := by
  induction rows generalizing m with
  | nil => rfl
  | cons r tl ih =>
      have hr := h r (List.mem_cons_self r tl)
      have hstep := akeys_aggregateCat m fms r.1 r.2.1 r.2.2 hr
      have htl : ∀ r' ∈ tl, r'.1 ∈ akeys (aggregateCat m fms r.1 r.2.1 r.2.2) := by
        intro r' hr'
        rw [hstep]
        exact h r' (List.mem_cons_of_mem r hr')
      calc akeys ((r :: tl).foldl (fun m r => aggregateCat m fms r.1 r.2.1 r.2.2) m)
          = akeys (tl.foldl (fun m r => aggregateCat m fms r.1 r.2.1 r.2.2)
              (aggregateCat m fms r.1 r.2.1 r.2.2)) := rfl
        _ = akeys (aggregateCat m fms r.1 r.2.1 r.2.2) := ih _ htl
        _ = akeys m := hstep

theorem akeys_aggregate_metrics (m : Metrics) (fms : List FileMetrics)
    (h : ∀ r ∈ aggregationTable, r.1 ∈ akeys m) :
    akeys (aggregate_metrics m fms) = akeys m := by
  unfold aggregate_metrics
  by_cases hf : fms.isEmpty
  · simp [hf]
  · simp only [hf, Bool.false_eq_true, if_false]
    exact akeys_aggregation_fold _ _ _ h

/-- C6: for every analyzer and every input file map the metrics mapping
returned by `analyze_files` carries exactly the eight category keys, in
their fixed order — no key is added and none is dropped. -/
theorem C6_category_closure (spec : AnalyzerSpec) (files : List (String × String)) :
    akeys ((analyze_files spec initAnalyzerState files).2) = categoryNames := by
  simp only [analyze_files]
  rw [akeys_aggregate_metrics]
  · rfl
  · intro r hr
    fin_cases hr <;> decide

/-- C3 counterexample: in the two-file input `exFiles` the report names
"b.py" as the most duplicated file (raw summed duplicated-block size 15
against 5 for "a.py"), although "a.py" — a file occurring in a duplicate
cluster — has the strictly higher summed-size-to-own-line-count ratio
(5/5 = 1 against 15/17). -/
theorem C3_counterexample :
    ((find_duplicates dupCfg exFiles).mayor_duplicacion.map
      (fun m => m.archivo)) = some "b.py" ∧
    ("a.py", 5) ∈ dupFileStats dupCfg exFiles ∧
    ("b.py", 15) ∈ dupFileStats dupCfg exFiles ∧
    "a.py" ∈ (find_duplicates dupCfg exFiles).archivos_afectados ∧
    (15 : ℚ) / (fileLineCount exL : ℚ) < (5 : ℚ) / (fileLineCount exS : ℚ) := by
  refine ⟨by decide, by decide, by decide, by decide, ?_⟩
  have hS : fileLineCount exS = 5 := by decide
  have hL : fileLineCount exL = 17 := by decide
  rw [hS, hL]
  norm_num

/-- C3 amended: when at least one duplicate cluster exists,
`mayor_duplicacion` names a file whose raw summed duplicated-block size is
maximal over all files occurring in duplicate clusters (no division by the
file's own line count is involved in the choice); the reported percentage
then divides that raw sum by the chosen file's line count. -/
theorem C3_most_duplicated_file (cfg : DupConfig) (files : List (String × String))
    (h : dupFileStats cfg files ≠ []) :
    ∃ (f : String) (v : ℕ), (find_duplicates cfg files).mayor_duplicacion =
        some { archivo := f,
               porcentaje := pyRound2 ((v : ℚ) /
                 ((max (fileLineCount ((alookup files f).getD "")) 1 : ℕ) : ℚ) * 100) } ∧
      (f, v) ∈ dupFileStats cfg files ∧
      ∀ gw ∈ dupFileStats cfg files, gw.2 ≤ v := by
  obtain ⟨s, rest, hstats⟩ := List.exists_cons_of_ne_nil h
  have hspec := pyMaxBySnd_spec s rest
  refine ⟨(pyMaxBySnd s rest).1, (pyMaxBySnd s rest).2, ?_, ?_, ?_⟩
  · simp only [find_duplicates, hstats]
    rfl
  · rw [hstats]
    rcases hspec.1 with hcase | hcase
    · rw [Prod.mk.eta, hcase]
      exact List.mem_cons_self s rest
    · rw [Prod.mk.eta]
      exact List.mem_cons_of_mem s hcase
  · intro gw hgw
    rw [hstats] at hgw
    rcases List.mem_cons.mp hgw with hgw | hgw
    · subst hgw
      exact hspec.2.1
    · exact hspec.2.2 gw hgw

/-- C3 amended witness at the concrete two-file input. -/
theorem C3_most_duplicated_file_witness :
    ∃ (f : String) (v : ℕ), (find_duplicates dupCfg exFiles).mayor_duplicacion =
        some { archivo := f,
               porcentaje := pyRound2 ((v : ℚ) /
                 ((max (fileLineCount ((alookup exFiles f).getD "")) 1 : ℕ) : ℚ) * 100) } ∧
      (f, v) ∈ dupFileStats dupCfg exFiles ∧
      ∀ gw ∈ dupFileStats dupCfg exFiles, gw.2 ≤ v :=
  C3_most_duplicated_file dupCfg exFiles (by decide)

/-- C8: whenever at least one language was analyzed, the
`overall_empathy_score` of `total_metrics` is the sum over all analyzed
languages of that language's empathy score times its file count divided by
the total file count. -/
theorem C8_overall_weighted_score (st : FactoryState)
    (files : List (String × String))
    (h : (analyze_multi_language_project st files).languages ≠ []) :
    ∃ tm, (analyze_multi_language_project st files).total_metrics = some tm ∧
      tm.overall_empathy_score =
        claimedOverallScore (analyze_multi_language_project st files).languages := by
  have hrfl : (analyze_multi_language_project st files).total_metrics =
      calculate_aggregate_metrics (analyze_multi_language_project st files).languages :=
    rfl
  rw [hrfl]
  set langs := (analyze_multi_language_project st files).languages with hl
  have hne : langs.isEmpty = false := by
    cases hcase : langs with
    | nil => exact absurd hcase h
    | cons a tl => rfl
  simp only [calculate_aggregate_metrics, hne, Bool.false_eq_true, if_false]
  refine ⟨_, rfl, ?_⟩
  dsimp only
  rw [foldl_add_map_rat]
  simp only [zero_add, claimedOverallScore, languagesTotalFileCount, mul_div_assoc]

/-- C8 witness: a single Python file analysed through the default registry. -/
theorem C8_overall_weighted_score_witness :
    ∃ tm, (analyze_multi_language_project (defaultFactory noImpl)
        [("a.py", "x")]).total_metrics = some tm ∧
      tm.overall_empathy_score = claimedOverallScore
        (analyze_multi_language_project (defaultFactory noImpl)
          [("a.py", "x")]).languages :=
  C8_overall_weighted_score (defaultFactory noImpl) [("a.py", "x")]
    (List.ne_nil_of_length_pos (by decide))

theorem lookup2_getD_bounded (fm : FileMetrics) (hfm : valuesIn01 fm)
    (cat leaf : String) :
    0 ≤ (alookup ((alookup fm cat).getD []) leaf).getD 0 ∧
    (alookup ((alookup fm cat).getD []) leaf).getD 0 ≤ 1 := by
  cases h1 : alookup fm cat with
  | none => norm_num [alookup]
  | some inner =>
      cases h2 : alookup inner leaf with
      | none =>
          simp only [Option.getD_some]
          rw [h2]
          norm_num [Option.getD_none]
      | some v =>
          simp only [Option.getD_some]
          rw [h2]
          have hmem1 := mem_of_alookup_eq_some h1
          have hmem2 := mem_of_alookup_eq_some h2
          have := hfm _ hmem1 _ hmem2
          simpa using this

theorem valuesIn01_aggregateCat (m : Metrics) (fms : List FileMetrics)
    (cat leafIn leafOut : String)
    (hm : valuesIn01 m) (hfms : ∀ fm ∈ fms, valuesIn01 fm) :
    valuesIn01 (aggregateCat m fms cat leafIn leafOut) := by
  simp only [aggregateCat]
  by_cases hs : ((fms.filter (fun fm => !((alookup fm cat).getD []).isEmpty)).map
      (fun fm => (alookup ((alookup fm cat).getD []) leafIn).getD 0)).isEmpty
  · rw [if_pos hs]
    exact hm
  · rw [if_neg hs]
    have hscoredata : ∀ x ∈ (fms.filter
        (fun fm => !((alookup fm cat).getD []).isEmpty)).map
        (fun fm => (alookup ((alookup fm cat).getD []) leafIn).getD 0),
        0 ≤ x ∧ x ≤ 1 := by
      intro x hx
      rcases List.mem_map.mp hx with ⟨fm, hfm_mem, rfl⟩
      exact lookup2_getD_bounded fm (hfms fm (List.mem_of_mem_filter hfm_mem)) cat leafIn
    have hne : (fms.filter (fun fm => !((alookup fm cat).getD []).isEmpty)).map
        (fun fm => (alookup ((alookup fm cat).getD []) leafIn).getD 0) ≠ [] := by
      intro hnil
      rw [hnil] at hs
      exact hs rfl
    have hmean := listMean_bounds _ hne hscoredata
    intro cm hcm
    obtain ⟨c1, c2⟩ := cm
    rcases mem_aset_elim hcm with ⟨hc1, hc2⟩ | hcm'
    · intro lv hlv
      rw [hc2] at hlv
      obtain ⟨l1, l2⟩ := lv
      rcases mem_aset_elim hlv with ⟨hl1, hl2⟩ | hlv'
      · simp only
        rw [hl2]
        exact hmean
      · cases hcat : alookup m cat with
        | none =>
            rw [hcat] at hlv'
            simp at hlv'
        | some inner =>
            rw [hcat] at hlv'
            exact hm _ (mem_of_alookup_eq_some hcat) _ hlv'
    · exact hm _ hcm'

theorem valuesIn01_aggregation_fold (rows : List (String × String × String))
    (fms : List FileMetrics) (m : Metrics)
    (hm : valuesIn01 m) (hfms : ∀ fm ∈ fms, valuesIn01 fm) :
    valuesIn01 (rows.foldl (fun m r => aggregateCat m fms r.1 r.2.1 r.2.2) m) := by
  induction rows generalizing m with
  | nil => exact hm
  | cons r tl ih =>
      exact ih _ (valuesIn01_aggregateCat m fms r.1 r.2.1 r.2.2 hm hfms)

theorem valuesIn01_aggregate_metrics (m : Metrics) (fms : List FileMetrics)
    (hm : valuesIn01 m) (hfms : ∀ fm ∈ fms, valuesIn01 fm) :
    valuesIn01 (aggregate_metrics m fms) := by
  unfold aggregate_metrics
  by_cases hf : fms.isEmpty
  · rw [if_pos hf]
    exact hm
  · rw [if_neg hf]
    exact valuesIn01_aggregation_fold _ _ _ hm hfms

theorem empathy_score_bounds (m : Metrics) (hb : valuesIn01 m) :
    0 ≤ calculate_empathy_score m ∧ calculate_empathy_score m ≤ 1 := by
  have hws : ((empathyWeights.map Prod.snd).sum : ℚ) = 1 := by
    norm_num [empathyWeights]
  have hpos : ∀ cw ∈ empathyWeights, 0 ≤ cw.2 := by
    intro cw hcw
    fin_cases hcw <;> norm_num
  have heq : calculate_empathy_score m = (empathyWeights.filterMap (fun cw =>
      if ((alookup m cw.1).getD []).isEmpty then none
      else if (((alookup m cw.1).getD []).map Prod.snd).isEmpty then none
      else some (listMean (((alookup m cw.1).getD []).map Prod.snd) * cw.2))).sum := rfl
  have hterm : ∀ cw ∈ empathyWeights, ∀ t, (if ((alookup m cw.1).getD []).isEmpty then none
      else if (((alookup m cw.1).getD []).map Prod.snd).isEmpty then none
      else some (listMean (((alookup m cw.1).getD []).map Prod.snd) * cw.2)) = some t →
      0 ≤ t ∧ t ≤ cw.2 := by
    intro cw hcw t ht
    by_cases h1 : ((alookup m cw.1).getD []).isEmpty
    · rw [if_pos h1] at ht
      exact absurd ht (by simp)
    · rw [if_neg h1] at ht
      by_cases h2 : (((alookup m cw.1).getD []).map Prod.snd).isEmpty
      · rw [if_pos h2] at ht
        exact absurd ht (by simp)
      · rw [if_neg h2] at ht
        have hteq : t = listMean (((alookup m cw.1).getD []).map Prod.snd) * cw.2 :=
          (Option.some.inj ht).symm
        have hvals : ∀ x ∈ ((alookup m cw.1).getD []).map Prod.snd, 0 ≤ x ∧ x ≤ 1 := by
          intro x hx
          rcases List.mem_map.mp hx with ⟨lv, hlv, rfl⟩
          cases hcat : alookup m cw.1 with
          | none =>
              rw [hcat] at hlv
              simp at hlv
          | some inner =>
              rw [hcat] at hlv
              exact hb _ (mem_of_alookup_eq_some hcat) _ hlv
        have hne : ((alookup m cw.1).getD []).map Prod.snd ≠ [] := by
          intro hnil
          rw [hnil] at h2
          exact h2 rfl
        have hmean := listMean_bounds _ hne hvals
        have hw := hpos cw hcw
        subst hteq
        constructor
        · exact mul_nonneg hmean.1 hw
        · calc listMean (((alookup m cw.1).getD []).map Prod.snd) * cw.2
              ≤ 1 * cw.2 := mul_le_mul_of_nonneg_right hmean.2 hw
          _ = cw.2 := one_mul _
  obtain ⟨hlow, hhigh⟩ := filterMap_sum_bounds Prod.snd _ empathyWeights hpos hterm
  rw [heq]
  exact ⟨hlow, le_trans hhigh (le_of_eq hws)⟩

/-- C1 counterexample: an analyzer whose per-file modularity metric is the
function count 20 — a value the spec's own data model allows as an
"unbounded count for absolute metrics" — drives the empathy score to 3,
strictly above 1.0. -/
theorem C1_counterexample :
    1 < calculate_empathy_score
      ((analyze_files toySpec initAnalyzerState [("a.py", "x")]).2) := by
  norm_num +decide [calculate_empathy_score, empathyWeights, analyze_files,
    aggregate_metrics, aggregationTable, aggregateCat, listMean,
    initAnalyzerState, initMetrics, alookup, aset, toySpec, toyCountResult,
    should_analyze_file, pyEndsWith, Except.toOption, List.filter,
    List.filterMap]

/-- C1 amended: the empathy score after `analyze_files` lies in [0, 1] for
every analyzer all of whose per-file metric values lie in [0, 1]; the
weights sum to 1.0 and each weighted term is a category average times its
weight, but the score is not clipped, so unit-interval inputs are required
for the upper bound. -/
theorem C1_empathy_score_bounds (spec : AnalyzerSpec)
    (files : List (String × String))
    (h : ∀ p c fm, spec.analyzeFile p c = Except.ok fm → valuesIn01 fm) :
    0 ≤ calculate_empathy_score ((analyze_files spec initAnalyzerState files).2) ∧
    calculate_empathy_score ((analyze_files spec initAnalyzerState files).2) ≤ 1 := by
  apply empathy_score_bounds
  have hres : (analyze_files spec initAnalyzerState files).2 =
      aggregate_metrics initMetrics
        ((files.filter (fun pc => should_analyze_file spec pc.1)).filterMap
          (fun pc => (spec.analyzeFile pc.1 pc.2).toOption)) := rfl
  rw [hres]
  apply valuesIn01_aggregate_metrics
  · decide
  · intro fm hfm
    rcases List.mem_filterMap.mp hfm with ⟨pc, _, hsome⟩
    exact h pc.1 pc.2 fm ((toOption_eq_some_iff _ _).mp hsome)

/-- C1 amended witness: an analyzer producing only unit-interval values on
one concrete file. -/
theorem C1_empathy_score_bounds_witness :
    0 ≤ calculate_empathy_score
      ((analyze_files toyBoundedSpec initAnalyzerState [("a.py", "x")]).2) ∧
    calculate_empathy_score
      ((analyze_files toyBoundedSpec initAnalyzerState [("a.py", "x")]).2) ≤ 1 := by
  apply C1_empathy_score_bounds
  intro p c fm hm
  have hfm : fm = toyBoundedResult := (Except.ok.inj hm).symm
  subst hfm
  norm_num [valuesIn01, toyBoundedResult]

end CodeEmpathizer
